import Mathlib

/-
Verification of the polygreen reverse-vending-machine backend.

The development shallowly embeds the data model (tables `users`, `machines`,
`transactions`, `reward_brand`) and the operations of `src/app.py`
(`register`, `login`, `machine_insert`, `redeem_request`) and `src/admin.py`
(`admin_empty_machine`).  Python integers are unbounded, so numeric columns
are modeled as `Int` (serial ids as `Nat`).  SQL `UPDATE ... WHERE key = v`
updates every matching row, which the embedding mirrors with `List.map`
guarded by the key test; `fetchone` of a `SELECT ... WHERE` is `List.find?`.
Timestamps (`NOW()`) are a `now : Nat` parameter.  Database columns are
modeled as non-nullable: the source's `or 0` guards only matter for NULL
columns, which the seeds and schema defaults rule out, and for an `Int`
value `x` Python's `x or 0` equals `x`.
-/

/-! ### Python string primitives used by the source -/

/-- ASCII decimal digit test: mirrors the digit check of Python's
`str.isdigit` restricted to ASCII (code points 48 to 57). -/
def isPyDigit (c : Char) : Bool := 48 ≤ c.toNat && c.toNat ≤ 57

/-- Python whitespace characters stripped by `str.strip()` (ASCII range):
space, tab, newline, carriage return, vertical tab, form feed. -/
def isPySpace (c : Char) : Bool :=
  c.toNat == 32 || c.toNat == 9 || c.toNat == 10 || c.toNat == 13 ||
  c.toNat == 11 || c.toNat == 12

/-- `str.strip()` on a character list: drop whitespace from both ends. -/
def pyStrip (l : List Char) : List Char :=
  ((l.dropWhile isPySpace).reverse.dropWhile isPySpace).reverse

/-- `str.strip()` on strings. -/
def pyStripStr (s : String) : String := ⟨pyStrip s.data⟩

/-- Python slicing `s[:n]`: the first `n` characters. -/
def strTake (n : Nat) (s : String) : String := ⟨s.data.take n⟩

/-- Python slicing `s[-n:]`: the last `n` characters (the whole string when
it is shorter than `n`). -/
def strTakeRight (n : Nat) (s : String) : String :=
  ⟨s.data.drop (s.data.length - n)⟩

/-- `str.isdigit()` (ASCII model): nonempty and all characters are digits. -/
def isdigitStr (s : String) : Bool := !s.data.isEmpty && s.data.all isPyDigit

/-- Python truthiness of an optional string field read with `data.get(k)`:
`None` and the empty string are falsy. -/
def truthyOpt : Option String → Bool
  | none => false
  | some s => !(s == "")

/-- `str(data.get(k))`: Python's `str(None)` is the string `"None"`. -/
def pyStr : Option String → String
  | none => "None"
  | some s => s

/-! ### Decimal digit strings, `str(n)` and `zfill` -/

/-- The ASCII character of a decimal digit (`digitChar 7 = '7'`). -/
def digitChar : Nat → Char
  | 0 => '0' | 1 => '1' | 2 => '2' | 3 => '3' | 4 => '4'
  | 5 => '5' | 6 => '6' | 7 => '7' | 8 => '8' | _ => '9'

/-- Fuel-driven decimal expansion; `fuel > n` suffices (each recursive step
divides `n` by ten). -/
def natDigitsAux : Nat → Nat → List Char
  | 0, _ => []
  | fuel + 1, n =>
    if n < 10 then [digitChar n]
    else natDigitsAux fuel (n / 10) ++ [digitChar (n % 10)]

/-- The decimal digits of `n`: mirrors Python `str(n)` for `n ≥ 0`. -/
def natDigits (n : Nat) : List Char := natDigitsAux (n + 1) n

/-- One step of reading a decimal value, skipping the underscores that
Python's `int()` accepts between digits. -/
def pyDigitStep (a : Nat) (c : Char) : Nat :=
  if c = '_' then a else 10 * a + (c.toNat - 48)

/-- The numeric value of a digit-and-underscore character list. -/
def digitsVal (l : List Char) : Nat := l.foldl pyDigitStep 0

/-- Python `str.zfill(width)` on a character list: left-pad with `'0'`. -/
def zfill (width : Nat) (l : List Char) : List Char :=
  List.replicate (width - l.length) '0' ++ l

/-! ### Python `int()` parsing (PEP 515: underscores between digits) -/

/-- Accepts exactly the digit bodies Python's `int()` accepts after sign
removal: one or more digits with single underscores strictly between
digits. -/
def pyDigitRun : List Char → Bool
  | [] => false
  | [c] => isPyDigit c
  | c :: c2 :: rest =>
    isPyDigit c &&
      (if c2 = '_' then pyDigitRun rest else pyDigitRun (c2 :: rest))

/-- The body of Python `int()` after stripping: optional sign, then a digit
run with underscores between digits; `none` models the `ValueError` raised
otherwise. -/
def pyIntParseAux : List Char → Option Int
  | [] => none
  | c0 :: rest =>
    if c0 = '+' then
      if pyDigitRun rest then some (Int.ofNat (digitsVal rest)) else none
    else if c0 = '-' then
      if pyDigitRun rest then some (-(Int.ofNat (digitsVal rest))) else none
    else
      if pyDigitRun (c0 :: rest) then
        some (Int.ofNat (digitsVal (c0 :: rest)))
      else none

/-- Python `int(s)`: strip whitespace, then parse sign and digits. -/
def pyIntParse (s : String) : Option Int := pyIntParseAux (pyStrip s.data)

/-! ### Password hashing (external library) -/

/-- Modelled from the spec: the bcrypt hashing of the external `passlib`
library (not part of src).  The spec states register "hashes password
(bcrypt-family, cost factor fixed, input truncated to 72 bytes)".  The hash
is modeled as a tagged copy of the truncated password: verification succeeds
exactly when the truncated candidate matches the truncated original, which
is the functional contract the source relies on. -/
def bcryptHash (pw : String) : String := "$2b$" ++ strTake 72 pw

/-- Modelled from the spec: `bcrypt.verify(candidate, stored)` of `passlib`,
true when `stored` is the hash of `candidate` (after the 72-byte
truncation). -/
def bcryptVerify (candidate stored : String) : Bool :=
  stored == bcryptHash candidate

/-! ### Data model (tables of §3, `src/models.py` and the raw-SQL schema) -/

/-- A row of the `users` table. -/
structure UserRow where
  id : Nat
  user_id : String
  name : String
  mobile : String
  password_hash : String
  points : Int
  bottles : Int
  created_at : Nat
deriving Repr, DecidableEq

/-- Machine coordinates (`lat`, `lng`): SQL floats never read or written by
any modeled operation; carried with a decidable stand-in type so frame
properties can state they are unchanged. -/
structure Geo where
  lat : Int
  lng : Int
deriving Repr, DecidableEq

/-- A row of the `machines` table. -/
structure MachineRow where
  id : Nat
  machine_id : String
  name : String
  city : String
  geo : Geo
  current_bottles : Int
  max_capacity : Int
  total_bottles : Int
  is_full : Bool
  last_emptied : Option Nat
  created_at : Nat
deriving Repr, DecidableEq

/-- The `transactions.user_id` column receives the string `user_id` for
`earn` rows (`machine_insert`) but the integer surrogate `id` for `redeem`
rows (`redeem_request`); the embedding keeps both shapes apart. -/
inductive UserRef where
  | byUserId (s : String)
  | byId (n : Nat)
deriving Repr, DecidableEq

/-- A row of the `transactions` table.  `bottles` defaults to 0 for redeem
rows; `machine_id`/`brand_id` are mutually exclusive references. -/
structure TransactionRow where
  id : Nat
  user_ref : UserRef
  type : String
  points : Int
  bottles : Int
  machine_id : Option String
  brand_id : Option Nat
  created_at : Nat
deriving Repr, DecidableEq

/-- A row of the `reward_brand` table. -/
structure BrandRow where
  id : Nat
  name : String
  min_points : Int
  active : Bool
deriving Repr, DecidableEq

/-- The database state: the four tables plus the serial sequences feeding
`users.id` and `transactions.id`. -/
structure DBState where
  users : List UserRow
  machines : List MachineRow
  transactions : List TransactionRow
  brands : List BrandRow
  nextUserId : Nat
  nextTrxId : Nat
deriving Repr, DecidableEq

/-- `SELECT * FROM users WHERE user_id=%s` with `fetchone`. -/
def findUserByUserId (users : List UserRow) (uid : String) : Option UserRow :=
  users.find? (fun u => u.user_id == uid)

/-- `SELECT * FROM users WHERE id=%s` with `fetchone`. -/
def findUserById (users : List UserRow) (i : Nat) : Option UserRow :=
  users.find? (fun u => u.id == i)

/-- `SELECT * FROM machines WHERE machine_id=%s` with `fetchone`. -/
def findMachineByMachineId (ms : List MachineRow) (mid : String) :
    Option MachineRow :=
  ms.find? (fun m => m.machine_id == mid)

/-- `SELECT * FROM reward_brand WHERE id=%s` with `fetchone`. -/
def findBrandById (bs : List BrandRow) (i : Nat) : Option BrandRow :=
  bs.find? (fun b => b.id == i)

/-! ### Error taxonomy (§7) -/

/-- The error outcomes of the modeled handlers. -/
inductive ApiError where
  /-- HTTP 400, missing or malformed input. -/
  | validation (msg : String)
  /-- HTTP 400, duplicate unique field on register. -/
  | conflict (msg : String)
  /-- HTTP 404, unknown id. -/
  | notFound (msg : String)
  /-- HTTP 401, bad credentials. -/
  | auth (msg : String)
  /-- HTTP 400 from `machine_insert`: the machine cannot accept the request;
  carries the reported available space and requested count. -/
  | capacity (available : Int) (requested : Int)
  /-- HTTP 400 from `redeem_request`: below the brand minimum. -/
  | threshold (min_points : Int)
  /-- HTTP 400 with a plain message. -/
  | badRequest (msg : String)
  /-- An uncaught Python `ValueError` (HTTP 500). -/
  | valueError
deriving Repr, DecidableEq

/-- Decidable equality of handler outcomes, so that concrete runs can be
checked by `decide`. -/
instance {ε α : Type} [DecidableEq ε] [DecidableEq α] :
    DecidableEq (Except ε α) := fun x y =>
  match x, y with
  | .ok a, .ok b =>
    if h : a = b then isTrue (by rw [h])
    else isFalse (by intro he; injection he; contradiction)
  | .error a, .error b =>
    if h : a = b then isTrue (by rw [h])
    else isFalse (by intro he; injection he; contradiction)
  | .ok _, .error _ => isFalse (by intro he; exact Except.noConfusion he)
  | .error _, .ok _ => isFalse (by intro he; exact Except.noConfusion he)

/-! ### Operations of `src/app.py` -/

/-- `generate_user_id` (src/app.py:110-115): first four characters of the
name lowercased, an underscore, and the last four characters of the
mobile. -/
def generate_user_id (name mobile : String) : String :=
  ⟨(strTake 4 name).data.map Char.toLower ++
    '_' :: (strTakeRight 4 mobile).data⟩

/-- `register` (src/app.py:218-248).  Reads `name`, `mobile`, `password`
from the JSON body (absent keys are `none`; `mobile` goes through
`str(...)`, so an absent mobile becomes the truthy string `"None"`).
Checks `SELECT id FROM users WHERE mobile=%s OR user_id=%s`, then inserts a
user with zero points and bottles and returns the new `user_id`. -/
def register (s : DBState) (name? mobile? password? : Option String)
    (now : Nat) : DBState × Except ApiError String :=
  let mobile := pyStr mobile?
  if truthyOpt name? = true ∧ mobile ≠ "" ∧ truthyOpt password? = true then
    let name := name?.getD ""
    let password := password?.getD ""
    let user_id := generate_user_id name mobile
    if ∃ u ∈ s.users, u.mobile = mobile ∨ u.user_id = user_id then
      (s, .error (.conflict "mobile or user_id already used"))
    else
      let newUser : UserRow :=
        { id := s.nextUserId, user_id := user_id, name := name,
          mobile := mobile, password_hash := bcryptHash password,
          points := 0, bottles := 0, created_at := now }
      ({ s with users := s.users ++ [newUser],
                nextUserId := s.nextUserId + 1 },
       .ok user_id)
  else (s, .error (.validation "Missing fields"))

/-- The successful login response (src/app.py:274-288): the token claims
(identity plus denormalized mobile and name) and the public user fields.
No password hash is part of the response, mirroring the source. -/
structure LoginResponse where
  identity : String
  claim_mobile : String
  claim_name : String
  user_id : String
  name : String
  mobile : String
  points : Int
  bottles : Int
deriving Repr, DecidableEq

/-- `login` (src/app.py:252-288).  Strips both fields, validates the mobile
format (`isdigit`, length 8 to 15), looks the user up by mobile, verifies
the truncated password against the stored hash and issues the token whose
identity is the string `user_id`. -/
def login (s : DBState) (mobile? password? : Option String) :
    Except ApiError LoginResponse :=
  let mobile := pyStripStr (mobile?.getD "")
  let password := pyStripStr (password?.getD "")
  if mobile = "" ∨ password = "" then
    .error (.validation "Missing mobile or password")
  else if ¬(isdigitStr mobile = true ∧ 8 ≤ mobile.length ∧
      mobile.length ≤ 15) then
    .error (.validation "Invalid mobile number format")
  else
    match s.users.find? (fun u => u.mobile == mobile) with
    | none => .error (.auth "Invalid credentials")
    | some u =>
      let password_truncated := strTake 72 password
      if bcryptVerify password_truncated u.password_hash = false then
        .error (.auth "Invalid credentials")
      else
        .ok { identity := u.user_id, claim_mobile := u.mobile,
              claim_name := u.name, user_id := u.user_id, name := u.name,
              mobile := u.mobile, points := u.points, bottles := u.bottles }

/-- The snapshot `machine_insert` returns after refetching the updated
rows (src/app.py:533-542). -/
structure InsertResult where
  earned_points : Int
  bottles_added : Int
  user_total_points : Int
  user_total_bottles : Int
  machine_current_bottles : Int
  machine_available_space : Int
  machine_is_full : Bool
deriving Repr, DecidableEq

/-- `machine_insert` (src/app.py:464-542).  Validates the ids, fetches user
and machine, checks `bottle_count > available_space`, computes
`will_be_full = new_current >= max_capacity` and
`earned_points = bottle_count * points_per_bottle`, updates the user and
machine rows by key, appends one `earn` transaction, then refetches the
updated rows for the response.  Error returns happen before any write, so
they carry the unchanged state. -/
def machine_insert (s : DBState) (machine_id user_id : String)
    (bottle_count points_per_bottle : Int) (now : Nat) :
    DBState × Except ApiError InsertResult :=
  if machine_id = "" ∨ user_id = "" then
    (s, .error (.validation "machine_id and user_id required"))
  else
    match findUserByUserId s.users user_id with
    | none => (s, .error (.notFound "User not found"))
    | some _user =>
      match findMachineByMachineId s.machines machine_id with
      | none => (s, .error (.notFound "Machine not found"))
      | some machine =>
        let available_space := machine.max_capacity - machine.current_bottles
        if bottle_count > available_space then
          (s, .error (.capacity available_space bottle_count))
        else
          let new_current := machine.current_bottles + bottle_count
          let will_be_full := decide (machine.max_capacity ≤ new_current)
          let earned_points := bottle_count * points_per_bottle
          let users' := s.users.map fun u =>
            if u.user_id == user_id then
              { u with points := u.points + earned_points,
                       bottles := u.bottles + bottle_count }
            else u
          let machines' := s.machines.map fun m =>
            if m.machine_id == machine_id then
              { m with current_bottles := m.current_bottles + bottle_count,
                       total_bottles := m.total_bottles + bottle_count,
                       is_full := will_be_full }
            else m
          let trx : TransactionRow :=
            { id := s.nextTrxId, user_ref := .byUserId user_id,
              type := "earn", points := earned_points,
              bottles := bottle_count, machine_id := some machine_id,
              brand_id := none, created_at := now }
          let s' : DBState :=
            { s with users := users', machines := machines',
                     transactions := s.transactions ++ [trx],
                     nextTrxId := s.nextTrxId + 1 }
          match findUserByUserId s'.users user_id,
                findMachineByMachineId s'.machines machine_id with
          | some nu, some nm =>
            (s', .ok { earned_points := earned_points,
                       bottles_added := bottle_count,
                       user_total_points := nu.points,
                       user_total_bottles := nu.bottles,
                       machine_current_bottles := nm.current_bottles,
                       machine_available_space :=
                         nm.max_capacity - nm.current_bottles,
                       machine_is_full := nm.is_full })
          | _, _ =>
            -- unreachable: the updates preserve the looked-up keys
            (s', .error (.notFound "row vanished"))

/-- The coupon `f"{brand.name[:3].upper()}-{u.id}-{str(trx_id).zfill(4)}"`
of src/app.py:401. -/
def couponCode (brandName : String) (uid : Nat) (trxId : Nat) : String :=
  ⟨(strTake 3 brandName).data.map Char.toUpper ++
    '-' :: natDigits uid ++
    '-' :: zfill 4 (natDigits trxId)⟩

/-- `redeem_request` (src/app.py:365-402) after the token identity has been
resolved to the user row `u` (the resolution itself, `int(identity)`
followed by `get_user_or_404`, is modeled separately with
`parseJwtIdentity`).  Checks the brand and its `active` flag, the brand
minimum, refreshes the balance by surrogate id, deducts the points, appends
one `redeem` transaction and returns the synthesized coupon.  Error returns
happen before any write. -/
def redeem_request (s : DBState) (u : UserRow) (brand_id? : Option Nat)
    (pts : Int) (now : Nat) : DBState × Except ApiError String :=
  match brand_id? with
  | none => (s, .error (.badRequest "Invalid brand"))
  | some bid =>
    match findBrandById s.brands bid with
    | none => (s, .error (.badRequest "Invalid brand"))
    | some brand =>
    if brand.active = false then (s, .error (.badRequest "Invalid brand"))
    else if pts < brand.min_points then
      (s, .error (.threshold brand.min_points))
    else
      match findUserById s.users u.id with
      | none => (s, .error (.badRequest "Not enough points"))
      | some user_row =>
        if user_row.points < pts then
          (s, .error (.badRequest "Not enough points"))
        else
          let users' := s.users.map fun x =>
            if x.id == u.id then { x with points := x.points - pts } else x
          let trx : TransactionRow :=
            { id := s.nextTrxId, user_ref := .byId u.id, type := "redeem",
              points := pts, bottles := 0, machine_id := none,
              brand_id := some brand.id, created_at := now }
          let s' : DBState :=
            { s with users := users',
                     transactions := s.transactions ++ [trx],
                     nextTrxId := s.nextTrxId + 1 }
          (s', .ok (couponCode brand.name u.id s.nextTrxId))

/-- The prelude shared by the handlers `transactions` (src/app.py:337-339)
and `redeem_request` (src/app.py:367-370): `uid = int(get_jwt_identity())`.
A non-parseable identity raises `ValueError`, an unhandled 500, before any
query runs. -/
def parseJwtIdentity (identity : String) : Except ApiError Int :=
  match pyIntParse identity with
  | none => .error .valueError
  | some n => .ok n

/-! ### Operation of `src/admin.py` -/

/-- `admin_empty_machine` (src/admin.py:583-610).  404 when the machine is
absent; otherwise reads the pre-reset bottle count, then
`UPDATE machines SET current_bottles = 0, is_full = FALSE,
last_emptied = NOW() WHERE machine_id = %s` and reports the collected
count. -/
def admin_empty_machine (s : DBState) (machine_id : String) (now : Nat) :
    DBState × Except ApiError Int :=
  match findMachineByMachineId s.machines machine_id with
  | none => (s, .error (.notFound "machine"))
  | some machine =>
    let previous_count := machine.current_bottles
    let machines' := s.machines.map fun m =>
      if m.machine_id == machine_id then
        { m with current_bottles := 0, is_full := false,
                 last_emptied := some now }
      else m
    ({ s with machines := machines' }, .ok previous_count)

/-- The users-table invariant of §3: every points balance and bottle count
is a non-negative integer. -/
def UsersNonneg (s : DBState) : Prop :=
  ∀ u ∈ s.users, 0 ≤ u.points ∧ 0 ≤ u.bottles

instance (s : DBState) : Decidable (UsersNonneg s) :=
  inferInstanceAs (Decidable (∀ u ∈ s.users, 0 ≤ u.points ∧ 0 ≤ u.bottles))

/-! ### List lemmas for keyed SQL updates -/

lemma findUser_map_deposit (l : List UserRow) (uid : String) (ep bc : Int) :
    findUserByUserId
      (l.map fun u =>
        if u.user_id == uid then
          { u with points := u.points + ep, bottles := u.bottles + bc }
        else u) uid
    = (findUserByUserId l uid).map fun u =>
        { u with points := u.points + ep, bottles := u.bottles + bc } := by
  induction l with
  | nil => rfl
  | cons h t ih =>
    by_cases hp : h.user_id = uid
    · simp [findUserByUserId, List.find?_cons, hp]
    · simpa [findUserByUserId, List.find?_cons, hp] using ih

lemma findMachine_map_deposit (l : List MachineRow) (mid : String) (bc : Int)
    (b : Bool) :
    findMachineByMachineId
      (l.map fun m =>
        if m.machine_id == mid then
          { m with current_bottles := m.current_bottles + bc,
                   total_bottles := m.total_bottles + bc, is_full := b }
        else m) mid
    = (findMachineByMachineId l mid).map fun m =>
        { m with current_bottles := m.current_bottles + bc,
                 total_bottles := m.total_bottles + bc, is_full := b } := by
  induction l with
  | nil => rfl
  | cons h t ih =>
    by_cases hp : h.machine_id = mid
    · simp [findMachineByMachineId, List.find?_cons, hp]
    · simpa [findMachineByMachineId, List.find?_cons, hp] using ih

lemma findUser_map_redeem (l : List UserRow) (i : Nat) (pts : Int) :
    findUserById
      (l.map fun x =>
        if x.id == i then { x with points := x.points - pts } else x) i
    = (findUserById l i).map fun x => { x with points := x.points - pts } := by
  induction l with
  | nil => rfl
  | cons h t ih =>
    by_cases hp : h.id = i
    · simp [findUserById, List.find?_cons, hp]
    · simpa [findUserById, List.find?_cons, hp] using ih

lemma findMachine_map_empty (l : List MachineRow) (mid : String) (now : Nat) :
    findMachineByMachineId
      (l.map fun m =>
        if m.machine_id == mid then
          { m with current_bottles := 0, is_full := false,
                   last_emptied := some now }
        else m) mid
    = (findMachineByMachineId l mid).map fun m =>
        { m with current_bottles := 0, is_full := false,
                 last_emptied := some now } := by
  induction l with
  | nil => rfl
  | cons h t ih =>
    by_cases hp : h.machine_id = mid
    · simp [findMachineByMachineId, List.find?_cons, hp]
    · simpa [findMachineByMachineId, List.find?_cons, hp] using ih

lemma find?_append_of_all_neg {α : Type} (l₁ l₂ : List α) (p : α → Bool)
    (h : ∀ a ∈ l₁, p a = false) :
    (l₁ ++ l₂).find? p = l₂.find? p := by
  induction l₁ with
  | nil => rfl
  | cons x t ih =>
    have hx := h x (by simp)
    simp only [List.cons_append, List.find?_cons, hx]
    exact ih fun a ha => h a (by simp [ha])

/-! ### Decimal digit lemmas -/

lemma digitChar_toNat {n : Nat} (h : n < 10) : (digitChar n).toNat = 48 + n := by
  interval_cases n <;> decide

lemma isPyDigit_digitChar (n : Nat) : isPyDigit (digitChar n) = true := by
  match n with
  | 0 | 1 | 2 | 3 | 4 | 5 | 6 | 7 | 8 => decide
  | m + 9 => exact (by decide : isPyDigit '9' = true)

lemma digitChar_ne_underscore (n : Nat) : digitChar n ≠ '_' := by
  match n with
  | 0 | 1 | 2 | 3 | 4 | 5 | 6 | 7 | 8 => decide
  | m + 9 => exact (by decide : ¬('9' = '_'))

lemma isPyDigit_ne_dash {c : Char} (h : isPyDigit c = true) : ¬(c = '-') := by
  intro he
  subst he
  revert h
  decide

lemma isPyDigit_ne_underscore {c : Char} (h : isPyDigit c = true) :
    ¬(c = '_') := by
  intro he
  subst he
  revert h
  decide

lemma digitsVal_natDigitsAux (fuel : Nat) :
    ∀ n, n < fuel → digitsVal (natDigitsAux fuel n) = n := by
  induction fuel with
  | zero => intro n h; omega
  | succ f ih =>
    intro n h
    by_cases h10 : n < 10
    · simp only [natDigitsAux, if_pos h10]
      simp [digitsVal, pyDigitStep, digitChar_ne_underscore,
        digitChar_toNat h10]
    · have hf : n / 10 < f := by omega
      simp only [natDigitsAux, if_neg h10]
      rw [digitsVal, List.foldl_append]
      have hv : List.foldl pyDigitStep 0 (natDigitsAux f (n / 10)) = n / 10 :=
        ih (n / 10) hf
      rw [hv]
      simp [pyDigitStep, digitChar_ne_underscore,
        digitChar_toNat (show n % 10 < 10 by omega)]
      omega

lemma digitsVal_natDigits (n : Nat) : digitsVal (natDigits n) = n :=
  digitsVal_natDigitsAux (n + 1) n (by omega)

lemma foldl_replicate_zero (k : Nat) :
    List.foldl pyDigitStep 0 (List.replicate k '0') = 0 := by
  induction k with
  | zero => rfl
  | succ m ih =>
    rw [List.replicate_succ, List.foldl_cons]
    have hz : pyDigitStep 0 '0' = 0 := by decide
    rw [hz]
    exact ih

lemma digitsVal_zfill (w : Nat) (l : List Char) :
    digitsVal (zfill w l) = digitsVal l := by
  rw [zfill, digitsVal, List.foldl_append, foldl_replicate_zero]
  rfl

lemma zfill_natDigits_inj {t1 t2 : Nat}
    (h : zfill 4 (natDigits t1) = zfill 4 (natDigits t2)) : t1 = t2 := by
  have hv := congrArg digitsVal h
  rwa [digitsVal_zfill, digitsVal_zfill, digitsVal_natDigits,
    digitsVal_natDigits] at hv

lemma mem_natDigitsAux_digit (fuel : Nat) :
    ∀ n c, c ∈ natDigitsAux fuel n → isPyDigit c = true := by
  induction fuel with
  | zero => intro n c hc; simp [natDigitsAux] at hc
  | succ f ih =>
    intro n c hc
    by_cases h10 : n < 10
    · simp only [natDigitsAux, if_pos h10, List.mem_singleton] at hc
      rw [hc]
      exact isPyDigit_digitChar n
    · simp only [natDigitsAux, if_neg h10, List.mem_append,
        List.mem_singleton] at hc
      rcases hc with hc | hc
      · exact ih (n / 10) c hc
      · rw [hc]
        exact isPyDigit_digitChar (n % 10)

lemma mem_natDigits_digit {n : Nat} {c : Char} (hc : c ∈ natDigits n) :
    isPyDigit c = true :=
  mem_natDigitsAux_digit (n + 1) n c hc

lemma mem_zfill_natDigits_digit {n w : Nat} {c : Char}
    (hc : c ∈ zfill w (natDigits n)) : isPyDigit c = true := by
  rw [zfill, List.mem_append] at hc
  rcases hc with hc | hc
  · rw [List.eq_of_mem_replicate hc]
    decide
  · exact mem_natDigits_digit hc

/-! ### The segment after the last dash -/

/-- The suffix of a character list after its last `'-'` (the whole list when
there is none). -/
def lastSeg (l : List Char) : List Char :=
  (l.reverse.takeWhile fun c => !(c == '-')).reverse

lemma takeWhile_append_stop {α : Type} (p : α → Bool) (l : List α) (x : α)
    (r : List α) (hl : ∀ c ∈ l, p c = true) (hx : p x = false) :
    (l ++ x :: r).takeWhile p = l := by
  induction l with
  | nil => simp [List.takeWhile_cons, hx]
  | cons a t ih =>
    have ha := hl a (by simp)
    simp [List.cons_append, List.takeWhile_cons, ha,
      ih fun c hc => hl c (by simp [hc])]

lemma lastSeg_append (X Z : List Char) (hZ : ∀ c ∈ Z, ¬(c = '-')) :
    lastSeg (X ++ '-' :: Z) = Z := by
  rw [lastSeg]
  have hsh : (X ++ '-' :: Z).reverse = Z.reverse ++ '-' :: X.reverse := by
    simp [List.reverse_append]
  rw [hsh, takeWhile_append_stop _ _ _ _ ?all ?stop, List.reverse_reverse]
  case all =>
    intro c hc
    have := hZ c (List.mem_reverse.mp hc)
    simp [this]
  case stop => decide

/-! ### Operation characterization lemmas -/

lemma machine_insert_ok_spec (s : DBState) (mid uid : String)
    (bc ppb : Int) (now : Nat) (u : UserRow) (m : MachineRow)
    (hu : findUserByUserId s.users uid = some u)
    (hm : findMachineByMachineId s.machines mid = some m)
    (hmid : mid ≠ "") (huid : uid ≠ "")
    (hcap : bc ≤ m.max_capacity - m.current_bottles) :
    ∃ s', machine_insert s mid uid bc ppb now =
      (s', .ok { earned_points := bc * ppb, bottles_added := bc,
                 user_total_points := u.points + bc * ppb,
                 user_total_bottles := u.bottles + bc,
                 machine_current_bottles := m.current_bottles + bc,
                 machine_available_space :=
                   m.max_capacity - (m.current_bottles + bc),
                 machine_is_full :=
                   decide (m.max_capacity ≤ m.current_bottles + bc) }) ∧
      findUserByUserId s'.users uid =
        some { u with points := u.points + bc * ppb,
                      bottles := u.bottles + bc } ∧
      findMachineByMachineId s'.machines mid =
        some { m with current_bottles := m.current_bottles + bc,
                      total_bottles := m.total_bottles + bc,
                      is_full :=
                        decide (m.max_capacity ≤ m.current_bottles + bc) } ∧
      s'.transactions = s.transactions ++
        [{ id := s.nextTrxId, user_ref := .byUserId uid, type := "earn",
           points := bc * ppb, bottles := bc, machine_id := some mid,
           brand_id := none, created_at := now }] ∧
      s'.users = s.users.map (fun x =>
        if x.user_id == uid then
          { x with points := x.points + bc * ppb, bottles := x.bottles + bc }
        else x) ∧
      s'.machines = s.machines.map (fun x =>
        if x.machine_id == mid then
          { x with current_bottles := x.current_bottles + bc,
                   total_bottles := x.total_bottles + bc,
                   is_full :=
                     decide (m.max_capacity ≤ m.current_bottles + bc) }
        else x) ∧
      s'.brands = s.brands ∧ s'.nextTrxId = s.nextTrxId + 1 ∧
      s'.nextUserId = s.nextUserId := by
  unfold machine_insert
  rw [if_neg (by push_neg; exact ⟨hmid, huid⟩)]
  simp only [hu, hm]
  rw [if_neg (not_lt.mpr hcap)]
  simp only [findUser_map_deposit, findMachine_map_deposit, hu, hm,
    Option.map_some']
  refine ⟨_, rfl, ?_, ?_, rfl, rfl, rfl, rfl, rfl, rfl⟩
  · simp only [findUser_map_deposit, hu, Option.map_some']
  · simp only [findMachine_map_deposit, hm, Option.map_some']

lemma redeem_request_ok_spec (s : DBState) (u : UserRow) (bid : Nat)
    (brand : BrandRow) (row : UserRow) (pts : Int) (now : Nat)
    (hb : findBrandById s.brands bid = some brand) (ha : brand.active = true)
    (hmin : brand.min_points ≤ pts)
    (hrow : findUserById s.users u.id = some row) (hbal : pts ≤ row.points) :
    redeem_request s u (some bid) pts now =
      ({ s with
          users := s.users.map fun x =>
            if x.id == u.id then { x with points := x.points - pts } else x,
          transactions := s.transactions ++
            [{ id := s.nextTrxId, user_ref := .byId u.id, type := "redeem",
               points := pts, bottles := 0, machine_id := none,
               brand_id := some brand.id, created_at := now }],
          nextTrxId := s.nextTrxId + 1 },
       .ok (couponCode brand.name u.id s.nextTrxId)) := by
  unfold redeem_request
  simp only [hb]
  rw [if_neg (by simp [ha]), if_neg (not_lt.mpr hmin)]
  simp only [hrow]
  rw [if_neg (not_lt.mpr hbal)]

lemma redeem_request_ok_inv (s : DBState) (u : UserRow) (bid? : Option Nat)
    (pts : Int) (now : Nat) (s2 : DBState) (c : String)
    (h : redeem_request s u bid? pts now = (s2, .ok c)) :
    ∃ bid brand row, bid? = some bid ∧
      findBrandById s.brands bid = some brand ∧ brand.active = true ∧
      brand.min_points ≤ pts ∧ findUserById s.users u.id = some row ∧
      pts ≤ row.points ∧ c = couponCode brand.name u.id s.nextTrxId ∧
      s2 = { s with
        users := s.users.map fun x =>
          if x.id == u.id then { x with points := x.points - pts } else x,
        transactions := s.transactions ++
          [{ id := s.nextTrxId, user_ref := .byId u.id, type := "redeem",
             points := pts, bottles := 0, machine_id := none,
             brand_id := some brand.id, created_at := now }],
        nextTrxId := s.nextTrxId + 1 } := by
  unfold redeem_request at h
  split at h
  · simp at h
  split at h
  · simp at h
  rename_i bid bscrut brand heqb
  split at h
  · simp at h
  rename_i hact
  split at h
  · simp at h
  rename_i hmin
  split at h
  · simp at h
  rename_i uscrut row heqrow
  split at h
  · simp at h
  rename_i hbal
  simp only [Prod.mk.injEq, Except.ok.injEq] at h
  obtain ⟨hs, hc⟩ := h
  exact ⟨bid, brand, row, rfl, heqb, by simpa using hact,
    not_lt.mp hmin, heqrow, not_lt.mp hbal, hc.symm, hs.symm⟩

lemma redeem_request_err_inv (s : DBState) (u : UserRow) (bid? : Option Nat)
    (pts : Int) (now : Nat) (s2 : DBState) (e : ApiError)
    (h : redeem_request s u bid? pts now = (s2, .error e)) : s2 = s := by
  unfold redeem_request at h
  repeat' split at h
  all_goals injection h with h1 h2
  all_goals first
    | exact h1.symm
    | exact Except.noConfusion h2

lemma register_validation_spec (s : DBState)
    (name? mobile? password? : Option String) (now : Nat)
    (h : ¬(truthyOpt name? = true ∧ pyStr mobile? ≠ "" ∧
        truthyOpt password? = true)) :
    register s name? mobile? password? now =
      (s, .error (.validation "Missing fields")) := by
  unfold register
  rw [if_neg h]

lemma register_conflict_spec (s : DBState) (name password : String)
    (mobile? : Option String) (now : Nat)
    (hn : name ≠ "") (hp : password ≠ "")
    (hm : pyStr mobile? ≠ "")
    (hconf : ∃ u ∈ s.users, u.mobile = pyStr mobile? ∨
        u.user_id = generate_user_id name (pyStr mobile?)) :
    register s (some name) mobile? (some password) now =
      (s, .error (.conflict "mobile or user_id already used")) := by
  unfold register
  rw [if_pos ⟨by simp [truthyOpt, hn], hm, by simp [truthyOpt, hp]⟩]
  simp only [Option.getD_some]
  rw [if_pos hconf]

lemma register_ok_spec (s : DBState) (name password : String)
    (mobile? : Option String) (now : Nat)
    (hn : name ≠ "") (hp : password ≠ "")
    (hm : pyStr mobile? ≠ "")
    (hnoconf : ¬ ∃ u ∈ s.users, u.mobile = pyStr mobile? ∨
        u.user_id = generate_user_id name (pyStr mobile?)) :
    register s (some name) mobile? (some password) now =
      ({ s with
          users := s.users ++
            [{ id := s.nextUserId,
               user_id := generate_user_id name (pyStr mobile?),
               name := name, mobile := pyStr mobile?,
               password_hash := bcryptHash password,
               points := 0, bottles := 0, created_at := now }],
          nextUserId := s.nextUserId + 1 },
       .ok (generate_user_id name (pyStr mobile?))) := by
  unfold register
  rw [if_pos ⟨by simp [truthyOpt, hn], hm, by simp [truthyOpt, hp]⟩]
  simp only [Option.getD_some]
  rw [if_neg hnoconf]

/-! ### Whitespace and digit-run lemmas -/

lemma isPyDigit_not_space {c : Char} (h : isPyDigit c = true) :
    isPySpace c = false := by
  have h' : 48 ≤ c.toNat ∧ c.toNat ≤ 57 := by
    simpa [isPyDigit, Bool.and_eq_true, decide_eq_true_eq] using h
  simp only [isPySpace, Bool.or_eq_false_iff, beq_eq_false_iff_ne, ne_eq]
  omega

lemma dropWhile_eq_self_of_neg {α : Type} (p : α → Bool) (l : List α)
    (h : ∀ c ∈ l, p c = false) : l.dropWhile p = l := by
  cases l with
  | nil => rfl
  | cons a t => simp [List.dropWhile_cons, h a (by simp)]

lemma pyStrip_of_all_nonspace (l : List Char)
    (h : ∀ c ∈ l, isPySpace c = false) : pyStrip l = l := by
  rw [pyStrip, dropWhile_eq_self_of_neg _ _ h,
    dropWhile_eq_self_of_neg _ _ (fun c hc => h c (List.mem_reverse.mp hc)),
    List.reverse_reverse]

lemma pyStripStr_of_digits (s : String) (h : isdigitStr s = true) :
    pyStripStr s = s := by
  have hall : ∀ c ∈ s.data, isPyDigit c = true := by
    have := (Bool.and_eq_true _ _).mp h
    intro c hc
    exact (List.all_eq_true.mp this.2) c hc
  cases s with
  | mk data =>
    rw [pyStripStr]
    rw [pyStrip_of_all_nonspace _ fun c hc => isPyDigit_not_space (hall c hc)]

lemma mem_dropWhile_of_neg {α : Type} (p : α → Bool) (l : List α) (c : α)
    (hc : c ∈ l) (hp : p c = false) : c ∈ l.dropWhile p := by
  induction l with
  | nil => simp at hc
  | cons a t ih =>
    rw [List.dropWhile_cons]
    by_cases ha : p a = true
    · rw [if_pos ha]
      rcases List.mem_cons.mp hc with he | ht
      · subst he
        rw [ha] at hp
        exact absurd hp (by simp)
      · exact ih ht
    · rw [if_neg ha]
      exact hc

lemma mem_pyStrip {l : List Char} {c : Char} (hc : c ∈ l)
    (hs : isPySpace c = false) : c ∈ pyStrip l := by
  rw [pyStrip]
  have h1 : c ∈ l.dropWhile isPySpace := mem_dropWhile_of_neg _ _ _ hc hs
  have h2 : c ∈ (l.dropWhile isPySpace).reverse := List.mem_reverse.mpr h1
  have h3 : c ∈ (l.dropWhile isPySpace).reverse.dropWhile isPySpace :=
    mem_dropWhile_of_neg _ _ _ h2 hs
  exact List.mem_reverse.mpr h3

lemma pyDigitRun_mem :
    ∀ l : List Char, pyDigitRun l = true →
      ∀ c ∈ l, isPyDigit c = true ∨ c = '_'
  | [], h => by simp [pyDigitRun] at h
  | [c0], h => by
    intro c hc
    rw [List.mem_singleton] at hc
    subst hc
    exact Or.inl (by simpa [pyDigitRun] using h)
  | c0 :: c1 :: rest, h => by
    intro c hc
    rw [pyDigitRun, Bool.and_eq_true] at h
    obtain ⟨h0, hcond⟩ := h
    by_cases h1 : c1 = '_'
    · rw [if_pos h1] at hcond
      rcases List.mem_cons.mp hc with he | hc'
      · exact Or.inl (he ▸ h0)
      · rcases List.mem_cons.mp hc' with he | hc''
        · exact Or.inr (he.trans h1)
        · exact pyDigitRun_mem rest hcond c hc''
    · rw [if_neg h1] at hcond
      rcases List.mem_cons.mp hc with he | hc'
      · exact Or.inl (he ▸ h0)
      · exact pyDigitRun_mem (c1 :: rest) hcond c hc'

lemma pyIntParse_none_of_bad_char (s : String) (c : Char)
    (hc : c ∈ s.data) (hns : isPySpace c = false)
    (hnd : isPyDigit c = false) (hnu : ¬ c = '_')
    (hnp : ¬ c = '+') (hnm : ¬ c = '-') :
    pyIntParse s = none := by
  have hmem : c ∈ pyStrip s.data := mem_pyStrip hc hns
  have hnotrun : ∀ l : List Char, c ∈ l → pyDigitRun l = false := by
    intro l hl
    by_contra hr
    rcases pyDigitRun_mem l (by simpa using hr) c hl with hd | hu
    · rw [hd] at hnd
      exact absurd hnd (by simp)
    · exact hnu hu
  rw [pyIntParse]
  cases hl : pyStrip s.data with
  | nil => rfl
  | cons c0 rest =>
    rw [hl] at hmem
    rw [pyIntParseAux]
    by_cases h0p : c0 = '+'
    · rw [if_pos h0p]
      have hcrest : c ∈ rest := by
        rcases List.mem_cons.mp hmem with he | hr
        · exact absurd (he.trans h0p) hnp
        · exact hr
      rw [hnotrun rest hcrest]
      simp
    · rw [if_neg h0p]
      by_cases h0m : c0 = '-'
      · rw [if_pos h0m]
        have hcrest : c ∈ rest := by
          rcases List.mem_cons.mp hmem with he | hr
          · exact absurd (he.trans h0m) hnm
          · exact hr
        rw [hnotrun rest hcrest]
        simp
      · rw [if_neg h0m]
        rw [hnotrun (c0 :: rest) hmem]
        simp

/-! ### Login and coupon lemmas -/

lemma strTake_strTake (n : Nat) (s : String) :
    strTake n (strTake n s) = strTake n s := by
  simp [strTake, List.take_take]

lemma bcryptVerify_hash (password : String) :
    bcryptVerify (strTake 72 password) (bcryptHash password) = true := by
  have h : bcryptHash (strTake 72 password) = bcryptHash password := by
    rw [bcryptHash, bcryptHash, strTake_strTake]
  simp [bcryptVerify, h]

lemma login_ok_spec (s : DBState) (mobile password : String) (u : UserRow)
    (hpstrip : pyStripStr password = password) (hp : password ≠ "")
    (hdig : isdigitStr mobile = true) (hlen8 : 8 ≤ mobile.length)
    (hlen15 : mobile.length ≤ 15)
    (hfind : s.users.find? (fun x => x.mobile == mobile) = some u)
    (hhash : u.password_hash = bcryptHash password) :
    login s (some mobile) (some password) = .ok
      { identity := u.user_id, claim_mobile := u.mobile,
        claim_name := u.name, user_id := u.user_id, name := u.name,
        mobile := u.mobile, points := u.points, bottles := u.bottles } := by
  have hmstrip : pyStripStr mobile = mobile := pyStripStr_of_digits mobile hdig
  have hm : mobile ≠ "" := by
    intro he
    rw [he] at hdig
    exact absurd hdig (by decide)
  unfold login
  simp only [Option.getD_some, hmstrip, hpstrip]
  rw [if_neg (by push_neg; exact ⟨hm, hp⟩)]
  rw [if_neg (not_not_intro ⟨hdig, hlen8, hlen15⟩)]
  simp only [hfind]
  rw [hhash, if_neg (by simp [bcryptVerify_hash])]

lemma eq_of_findUserById_of_nodup (l : List UserRow)
    (hnd : (l.map fun x => x.id).Nodup) (a b : UserRow) (k : Nat)
    (hfind : findUserById l k = some a) (hb : b ∈ l) (hbk : b.id = k) :
    b = a := by
  rw [findUserById] at hfind
  have ha : a ∈ l := List.mem_of_find?_eq_some hfind
  have hak := List.find?_some hfind
  simp only [beq_iff_eq] at hak
  exact List.inj_on_of_nodup_map hnd hb ha (by rw [hbk, hak])

lemma couponCode_data (b : String) (u t : Nat) :
    (couponCode b u t).data =
      ((strTake 3 b).data.map Char.toUpper ++ '-' :: natDigits u) ++
        '-' :: zfill 4 (natDigits t) := by
  simp [couponCode, List.append_assoc]

lemma couponCode_trx_inj (b1 b2 : String) (u1 u2 t1 t2 : Nat)
    (h : couponCode b1 u1 t1 = couponCode b2 u2 t2) : t1 = t2 := by
  have hdata := congrArg String.data h
  rw [couponCode_data, couponCode_data] at hdata
  have hseg := congrArg lastSeg hdata
  rw [lastSeg_append _ _ (fun c hc =>
        isPyDigit_ne_dash (mem_zfill_natDigits_digit hc)),
      lastSeg_append _ _ (fun c hc =>
        isPyDigit_ne_dash (mem_zfill_natDigits_digit hc))] at hseg
  exact zfill_natDigits_inj hseg

/-! ### Example rows and states (the spec §8 scenario: a machine at 95/100,
a user with 100 points, the seeded Swiggy brand) -/

/-- Example user (the seed user of `init_db`). -/
def uEx : UserRow :=
  { id := 1, user_id := "busa_1593", name := "TEST-USER",
    mobile := "01020411593", password_hash := "h", points := 100,
    bottles := 10, created_at := 0 }

/-- Example machine, at 95 of 100 capacity as in the spec scenario. -/
def mEx : MachineRow :=
  { id := 1, machine_id := "M001", name := "RVM Station A",
    city := "jim,korea", geo := { lat := 10, lng := 78 },
    current_bottles := 95, max_capacity := 100, total_bottles := 200,
    is_full := false, last_emptied := none, created_at := 0 }

/-- Example brand (the seeded Swiggy brand). -/
def bEx : BrandRow :=
  { id := 3, name := "Swiggy", min_points := 100, active := true }

/-- Example database state. -/
def sEx : DBState :=
  { users := [uEx], machines := [mEx], transactions := [], brands := [bEx],
    nextUserId := 2, nextTrxId := 1 }

/-- C1: a deposit with an existing user and machine and
`bottle_count ≤ available_space` succeeds and applies exactly four effects:
the user's points grow by `bottle_count * points_per_bottle` and bottles by
`bottle_count`; the machine's `current_bottles` and `total_bottles` each
grow by `bottle_count`; and exactly one `earn` transaction row referencing
that user and machine is appended to the ledger. -/
theorem machine_insert_four_effects (s : DBState) (mid uid : String)
    (bc ppb : Int) (now : Nat) (u : UserRow) (m : MachineRow)
    (hu : findUserByUserId s.users uid = some u)
    (hm : findMachineByMachineId s.machines mid = some m)
    (hmid : mid ≠ "") (huid : uid ≠ "")
    (hcap : bc ≤ m.max_capacity - m.current_bottles) :
    ∃ s' r, machine_insert s mid uid bc ppb now = (s', .ok r) ∧
      findUserByUserId s'.users uid =
        some { u with points := u.points + bc * ppb,
                      bottles := u.bottles + bc } ∧
      (∃ m', findMachineByMachineId s'.machines mid = some m' ∧
        m'.current_bottles = m.current_bottles + bc ∧
        m'.total_bottles = m.total_bottles + bc) ∧
      s'.transactions = s.transactions ++
        [{ id := s.nextTrxId, user_ref := .byUserId uid, type := "earn",
           points := bc * ppb, bottles := bc, machine_id := some mid,
           brand_id := none, created_at := now }] := by
  obtain ⟨s', heq, hu', hm', htrx, -, -, -, -, -⟩ :=
    machine_insert_ok_spec s mid uid bc ppb now u m hu hm hmid huid hcap
  exact ⟨s', _, heq, hu', ⟨_, hm', rfl, rfl⟩, htrx⟩

/-- Witness for C1 at the spec scenario (deposit of 5 into 95/100). -/
theorem machine_insert_four_effects_witness :
    (5 : Int) ≤ mEx.max_capacity - mEx.current_bottles ∧
    (∃ s' r, machine_insert sEx "M001" "busa_1593" 5 10 0 = (s', .ok r) ∧
      findUserByUserId s'.users "busa_1593" =
        some { uEx with points := uEx.points + 5 * 10,
                        bottles := uEx.bottles + 5 } ∧
      (∃ m', findMachineByMachineId s'.machines "M001" = some m' ∧
        m'.current_bottles = mEx.current_bottles + 5 ∧
        m'.total_bottles = mEx.total_bottles + 5) ∧
      s'.transactions = sEx.transactions ++
        [{ id := sEx.nextTrxId, user_ref := .byUserId "busa_1593",
           type := "earn", points := 5 * 10, bottles := 5,
           machine_id := some "M001", brand_id := none,
           created_at := 0 }]) :=
  ⟨by decide, machine_insert_four_effects sEx "M001" "busa_1593" 5 10 0
    uEx mEx rfl rfl (by decide) (by decide) (by decide)⟩

/-- C2: a deposit with an existing user and machine whose `bottle_count`
exceeds `available_space = max_capacity - current_bottles` returns a
CapacityError reporting both the available space and the requested count,
and leaves the state unchanged. -/
theorem machine_insert_capacity_error (s : DBState) (mid uid : String)
    (bc ppb : Int) (now : Nat) (u : UserRow) (m : MachineRow)
    (hu : findUserByUserId s.users uid = some u)
    (hm : findMachineByMachineId s.machines mid = some m)
    (hmid : mid ≠ "") (huid : uid ≠ "")
    (hover : m.max_capacity - m.current_bottles < bc) :
    machine_insert s mid uid bc ppb now =
      (s, .error (.capacity (m.max_capacity - m.current_bottles) bc)) := by
  unfold machine_insert
  rw [if_neg (by push_neg; exact ⟨hmid, huid⟩)]
  simp only [hu, hm]
  rw [if_pos hover]

/-- Witness for C2 at the spec scenario: deposit of 10 into 95/100 fails
with available space 5 and the state unchanged. -/
theorem machine_insert_capacity_error_witness :
    mEx.max_capacity - mEx.current_bottles < (10 : Int) ∧
    machine_insert sEx "M001" "busa_1593" 10 10 0 =
      (sEx, .error (.capacity 5 10)) :=
  ⟨by decide, machine_insert_capacity_error sEx "M001" "busa_1593" 10 10 0
    uEx mEx rfl rfl (by decide) (by decide) (by decide)⟩

/-- C4: a successful deposit sets the machine's `is_full` flag to the value
of `(old current_bottles + bottle_count) ≥ max_capacity`, and immediately
afterwards `is_full` is true iff `current_bottles ≥ max_capacity`. -/
theorem machine_insert_is_full_iff (s : DBState) (mid uid : String)
    (bc ppb : Int) (now : Nat) (u : UserRow) (m : MachineRow)
    (hu : findUserByUserId s.users uid = some u)
    (hm : findMachineByMachineId s.machines mid = some m)
    (hmid : mid ≠ "") (huid : uid ≠ "")
    (hcap : bc ≤ m.max_capacity - m.current_bottles) :
    ∃ s' r, machine_insert s mid uid bc ppb now = (s', .ok r) ∧
      r.machine_is_full = decide (m.max_capacity ≤ m.current_bottles + bc) ∧
      (∃ m', findMachineByMachineId s'.machines mid = some m' ∧
        m'.is_full = decide (m.max_capacity ≤ m.current_bottles + bc) ∧
        (m'.is_full = true ↔ m'.max_capacity ≤ m'.current_bottles)) := by
  obtain ⟨s', heq, -, hm', -, -, -, -, -, -⟩ :=
    machine_insert_ok_spec s mid uid bc ppb now u m hu hm hmid huid hcap
  refine ⟨s', _, heq, rfl, _, hm', rfl, ?_⟩
  simp [decide_eq_true_eq]

/-- Witness for C4 at the spec scenario: the deposit of 5 fills the machine
to 100/100 and `is_full` becomes true. -/
theorem machine_insert_is_full_iff_witness :
    (5 : Int) ≤ mEx.max_capacity - mEx.current_bottles ∧
    (∃ s' r, machine_insert sEx "M001" "busa_1593" 5 10 0 = (s', .ok r) ∧
      r.machine_is_full =
        decide (mEx.max_capacity ≤ mEx.current_bottles + 5) ∧
      (∃ m', findMachineByMachineId s'.machines "M001" = some m' ∧
        m'.is_full = decide (mEx.max_capacity ≤ mEx.current_bottles + 5) ∧
        (m'.is_full = true ↔ m'.max_capacity ≤ m'.current_bottles))) :=
  ⟨by decide, machine_insert_is_full_iff sEx "M001" "busa_1593" 5 10 0
    uEx mEx rfl rfl (by decide) (by decide) (by decide)⟩

/-- C9: `admin_empty_machine` fails with NotFound and leaves the state
unchanged when the machine is absent; otherwise it returns the pre-reset
bottle count and sets `current_bottles := 0`, `is_full := false`,
`last_emptied := now` on the target machine, leaving every other field of
that machine, every other machine, and the users, transactions and brands
tables unchanged. -/
theorem admin_empty_machine_spec (s : DBState) (mid : String) (now : Nat) :
    (findMachineByMachineId s.machines mid = none →
      admin_empty_machine s mid now = (s, .error (.notFound "machine"))) ∧
    (∀ m, findMachineByMachineId s.machines mid = some m →
      ∃ s', admin_empty_machine s mid now = (s', .ok m.current_bottles) ∧
        findMachineByMachineId s'.machines mid =
          some { m with current_bottles := 0, is_full := false,
                        last_emptied := some now } ∧
        (∀ x ∈ s.machines, x.machine_id ≠ mid → x ∈ s'.machines) ∧
        s'.users = s.users ∧ s'.transactions = s.transactions ∧
        s'.brands = s.brands ∧ s'.nextUserId = s.nextUserId ∧
        s'.nextTrxId = s.nextTrxId) := by
  constructor
  · intro hnone
    unfold admin_empty_machine
    rw [hnone]
  · intro m hm
    unfold admin_empty_machine
    rw [hm]
    refine ⟨_, rfl, ?_, ?_, rfl, rfl, rfl, rfl, rfl⟩
    · simp only [findMachine_map_empty, hm, Option.map_some']
    · intro x hx hxid
      refine List.mem_map.mpr ⟨x, hx, ?_⟩
      rw [if_neg (by simpa using hxid)]

/-- Witness for C9: emptying the 95/100 machine returns 95 and resets it;
an unknown machine id is a NotFound with unchanged state. -/
theorem admin_empty_machine_spec_witness :
    admin_empty_machine sEx "NOPE" 9 = (sEx, .error (.notFound "machine")) ∧
    (∃ s', admin_empty_machine sEx "M001" 9 = (s', .ok 95) ∧
      findMachineByMachineId s'.machines "M001" =
        some { mEx with current_bottles := 0, is_full := false,
                        last_emptied := some 9 } ∧
      (∀ x ∈ sEx.machines, x.machine_id ≠ "M001" → x ∈ s'.machines) ∧
      s'.users = sEx.users ∧ s'.transactions = sEx.transactions ∧
      s'.brands = sEx.brands ∧ s'.nextUserId = sEx.nextUserId ∧
      s'.nextTrxId = sEx.nextTrxId) :=
  ⟨(admin_empty_machine_spec sEx "NOPE" 9).1 rfl,
   (admin_empty_machine_spec sEx "M001" 9).2 mEx rfl⟩

/-- Whether a handler outcome is a success (an HTTP 2xx response). -/
def isOkResult {α : Type} : Except ApiError α → Bool
  | .ok _ => true
  | .error _ => false

/-- C3: against an existing active brand, a redemption succeeds (and then
deducts exactly `pts` from the user's refreshed balance) iff
`pts ≥ brand.min_points` and `pts ≤ balance`; in every other case — brand
missing or inactive, below threshold, insufficient balance — an error is
returned and the state is unchanged. -/
theorem redeem_request_balance_iff (s : DBState) (u : UserRow)
    (bid? : Option Nat) (pts : Int) (now : Nat) :
    (isOkResult (redeem_request s u bid? pts now).2 = true ↔
      ∃ bid brand row, bid? = some bid ∧
        findBrandById s.brands bid = some brand ∧ brand.active = true ∧
        brand.min_points ≤ pts ∧ findUserById s.users u.id = some row ∧
        pts ≤ row.points) ∧
    (∀ row, findUserById s.users u.id = some row →
      isOkResult (redeem_request s u bid? pts now).2 = true →
      findUserById (redeem_request s u bid? pts now).1.users u.id =
        some { row with points := row.points - pts }) ∧
    (isOkResult (redeem_request s u bid? pts now).2 = false →
      (redeem_request s u bid? pts now).1 = s) := by
  rcases hres : redeem_request s u bid? pts now with ⟨s2, res⟩
  cases res with
  | error e =>
    refine ⟨⟨fun h => absurd h (by simp [isOkResult]), fun h => ?_⟩,
      fun row hrow h => absurd h (by simp [isOkResult]), fun _ => ?_⟩
    · obtain ⟨bid, brand, row, hbid, hb, ha, hmin, hrow, hbal⟩ := h
      subst hbid
      have hok := redeem_request_ok_spec s u bid brand row pts now
        hb ha hmin hrow hbal
      rw [hok] at hres
      exact Except.noConfusion (congrArg Prod.snd hres)
    · exact redeem_request_err_inv s u bid? pts now s2 e hres
  | ok c =>
    obtain ⟨bid, brand, row0, hbid, hb, ha, hmin, hrow0, hbal, -, hs2⟩ :=
      redeem_request_ok_inv s u bid? pts now s2 c hres
    refine ⟨⟨fun _ => ⟨bid, brand, row0, hbid, hb, ha, hmin, hrow0, hbal⟩,
      fun _ => by simp [isOkResult]⟩, fun row hrow _ => ?_, fun h => ?_⟩
    · have hrr : row = row0 := by
        rw [hrow0] at hrow
        exact (Option.some.inj hrow).symm
      subst hrr
      rw [hs2]
      simp only [findUser_map_redeem, hrow0, Option.map_some']
    · exact absurd h (by simp [isOkResult])

/-- Witness for C3 at the spec scenario: the user with 100 points redeems
100 at Swiggy (minimum 100) — the success iff holds, the balance drops to
0, and a below-minimum request (50) leaves the state unchanged. -/
theorem redeem_request_balance_iff_witness :
    (isOkResult (redeem_request sEx uEx (some 3) 100 0).2 = true ↔
      ∃ bid brand row, (some 3 : Option Nat) = some bid ∧
        findBrandById sEx.brands bid = some brand ∧ brand.active = true ∧
        brand.min_points ≤ 100 ∧ findUserById sEx.users uEx.id = some row ∧
        (100 : Int) ≤ row.points) ∧
    findUserById (redeem_request sEx uEx (some 3) 100 0).1.users uEx.id =
      some { uEx with points := 0 } ∧
    (redeem_request sEx uEx (some 3) 50 0).1 = sEx := by
  refine ⟨(redeem_request_balance_iff sEx uEx (some 3) 100 0).1, ?_, ?_⟩
  · have h := (redeem_request_balance_iff sEx uEx (some 3) 100 0).2.1
      uEx rfl (by decide)
    simpa using h
  · exact (redeem_request_balance_iff sEx uEx (some 3) 50 0).2.2 (by decide)

/-- C5: the coupon of a successful redemption is the deterministic function
`couponCode` of the brand name, the user's surrogate id and the new
transaction's id (brand-name prefix, user identifier, zero-padded
transaction id), and redemptions with distinct transaction ids always get
distinct coupon codes, whatever the brand names and user ids. -/
theorem couponCode_deterministic_unique :
    (∀ b1 u1 t1 b2 u2 t2 : _, t1 ≠ t2 →
      couponCode b1 u1 t1 ≠ couponCode b2 u2 t2) ∧
    (∀ s u bid pts now s2 c,
      redeem_request s u (some bid) pts now = (s2, .ok c) →
      ∃ brand, findBrandById s.brands bid = some brand ∧
        c = couponCode brand.name u.id s.nextTrxId ∧
        ∃ trx, s2.transactions = s.transactions ++ [trx] ∧
          trx.id = s.nextTrxId ∧ trx.type = "redeem") := by
  constructor
  · intro b1 u1 t1 b2 u2 t2 hne heq
    exact hne (couponCode_trx_inj b1 b2 u1 u2 t1 t2 heq)
  · intro s u bid pts now s2 c h
    obtain ⟨bid0, brand, row, hbid, hb, -, -, -, -, hc, hs2⟩ :=
      redeem_request_ok_inv s u (some bid) pts now s2 c h
    cases Option.some.inj hbid
    exact ⟨brand, hb, hc, ⟨_, by rw [hs2], rfl, rfl⟩⟩

/-- Witness for C5: distinct transaction ids 1 and 2 give distinct coupons,
and the spec-scenario redemption returns the synthesized coupon of the new
transaction. -/
theorem couponCode_deterministic_unique_witness :
    couponCode "Swiggy" 1 1 ≠ couponCode "Swiggy" 1 2 ∧
    (∃ brand, findBrandById sEx.brands 3 = some brand ∧
      "SWI-1-0001" = couponCode brand.name uEx.id sEx.nextTrxId ∧
      ∃ trx, (redeem_request sEx uEx (some 3) 100 0).1.transactions =
        sEx.transactions ++ [trx] ∧ trx.id = sEx.nextTrxId ∧
        trx.type = "redeem") := by
  constructor
  · exact couponCode_deterministic_unique.1 "Swiggy" 1 1 "Swiggy" 1 2
      (by decide)
  · exact couponCode_deterministic_unique.2 sEx uEx 3 100 0
      (redeem_request sEx uEx (some 3) 100 0).1 "SWI-1-0001" (by decide)

/-- C10 (amended): the login token's identity claim is the string
`user_id`; `transactions` and `redeem_request` convert it with `int()`.
Whenever the lowercased four-character name prefix contains a letter, the
generated `user_id` fails Python's integer parse and both endpoints die
with an unhandled ValueError.  (An all-digit name and digit mobile defeat
this: see the counterexample.) -/
theorem token_identity_int_parse (name mobile : String) (c : Char)
    (hc : c ∈ (strTake 4 name).data.map Char.toLower)
    (hlo : 97 ≤ c.toNat) (hhi : c.toNat ≤ 122) :
    pyIntParse (generate_user_id name mobile) = none ∧
    parseJwtIdentity (generate_user_id name mobile) = .error .valueError := by
  have hcmem : c ∈ (generate_user_id name mobile).data :=
    List.mem_append.mpr (Or.inl hc)
  have hparse : pyIntParse (generate_user_id name mobile) = none := by
    apply pyIntParse_none_of_bad_char _ c hcmem
    · simp only [isPySpace, Bool.or_eq_false_iff, beq_eq_false_iff_ne, ne_eq]
      omega
    · simp only [isPyDigit, Bool.and_eq_false_iff]
      right
      simp only [decide_eq_false_iff_not, not_le]
      omega
    · intro he
      subst he
      exact absurd hlo (by decide)
    · intro he
      subst he
      exact absurd hlo (by decide)
    · intro he
      subst he
      exact absurd hlo (by decide)
  exact ⟨hparse, by rw [parseJwtIdentity, hparse]⟩

/-- Witness for C10 (amended): the registered name "alice" yields
"alic_..." whose letters make the integer parse fail, so both
integer-converting endpoints fail. -/
theorem token_identity_int_parse_witness :
    'a' ∈ (strTake 4 "alice").data.map Char.toLower ∧
    pyIntParse (generate_user_id "alice" "99995678") = none ∧
    parseJwtIdentity (generate_user_id "alice" "99995678") =
      .error .valueError :=
  ⟨by decide, token_identity_int_parse "alice" "99995678" 'a' (by decide)
    (by decide) (by decide)⟩

/-- Counterexample to C10 as stated: a user registered with the all-digit
name "1234" and mobile "99998888" gets user_id "1234_8888", which Python's
`int()` parses (underscores between digits are legal), so the identity is
not un-parseable for every registered user and the endpoints' integer
conversion does not fail. -/
theorem token_identity_int_parse_cex :
    (register sEx (some "1234") (some "99998888") (some "pw") 0).2 =
      .ok "1234_8888" ∧
    generate_user_id "1234" "99998888" = "1234_8888" ∧
    pyIntParse "1234_8888" = some 12348888 ∧
    parseJwtIdentity "1234_8888" = .ok 12348888 :=
  ⟨by decide, by decide, by decide, by decide⟩

/-- The users table after `machine_insert`: unchanged on the error paths,
otherwise updated by the keyed deposit map. -/
lemma machine_insert_users_cases (s : DBState) (mid uid : String)
    (bc ppb : Int) (now : Nat) :
    (machine_insert s mid uid bc ppb now).1.users = s.users ∨
    (machine_insert s mid uid bc ppb now).1.users =
      s.users.map (fun x =>
        if x.user_id == uid then
          { x with points := x.points + bc * ppb, bottles := x.bottles + bc }
        else x) := by
  unfold machine_insert
  dsimp only
  repeat' split
  all_goals first
    | exact Or.inl rfl
    | exact Or.inr rfl

/-- C6 (amended): starting from non-negative balances, every registration
and every redemption preserve `points ≥ 0` and `bottles ≥ 0` (redemption
under the primary-key uniqueness of `users.id`), and deposits preserve them
whenever `bottle_count ≥ 0` and `points_per_bottle ≥ 0`.  Deposits with
negative inputs are accepted by the code and can drive balances negative:
see the counterexample. -/
theorem users_nonneg_preserved :
    (∀ s name? mobile? password? now, UsersNonneg s →
      UsersNonneg (register s name? mobile? password? now).1) ∧
    (∀ s mid uid bc ppb now, UsersNonneg s → 0 ≤ bc → 0 ≤ ppb →
      UsersNonneg (machine_insert s mid uid bc ppb now).1) ∧
    (∀ s u bid? pts now, UsersNonneg s →
      (s.users.map fun x => x.id).Nodup →
      UsersNonneg (redeem_request s u bid? pts now).1) := by
  refine ⟨?_, ?_, ?_⟩
  · intro s name? mobile? password? now h
    unfold register
    dsimp only
    split
    · split
      · exact h
      · intro x hx
        rcases List.mem_append.mp hx with hold | hnew
        · exact h x hold
        · rw [List.mem_singleton] at hnew
          subst hnew
          exact ⟨le_refl 0, le_refl 0⟩
    · exact h
  · intro s mid uid bc ppb now h hbc hppb
    have hprod : 0 ≤ bc * ppb := mul_nonneg hbc hppb
    rcases machine_insert_users_cases s mid uid bc ppb now with hcase | hcase
    · intro x hx
      rw [hcase] at hx
      exact h x hx
    · intro x hx
      rw [hcase] at hx
      obtain ⟨y, hy, hfy⟩ := List.mem_map.mp hx
      subst hfy
      by_cases hk : (y.user_id == uid) = true
      · rw [if_pos hk]
        exact ⟨add_nonneg (h y hy).1 hprod, add_nonneg (h y hy).2 hbc⟩
      · rw [if_neg hk]
        exact h y hy
  · intro s u bid? pts now h hnd
    rcases hres : redeem_request s u bid? pts now with ⟨s2, res⟩
    cases res with
    | error e =>
      show UsersNonneg s2
      rw [redeem_request_err_inv s u bid? pts now s2 e hres]
      exact h
    | ok c =>
      obtain ⟨bid, brand, row, hbid, hb, ha, hmin, hrow, hbal, hc, hs2⟩ :=
        redeem_request_ok_inv s u bid? pts now s2 c hres
      show UsersNonneg s2
      rw [hs2]
      intro x hx
      obtain ⟨y, hy, hfy⟩ := List.mem_map.mp hx
      subst hfy
      by_cases hk : (y.id == u.id) = true
      · rw [if_pos hk]
        refine ⟨?_, (h y hy).2⟩
        have hyrow : y = row :=
          eq_of_findUserById_of_nodup s.users hnd row y u.id hrow hy
            (beq_iff_eq.mp hk)
        rw [hyrow]
        show (0 : Int) ≤ row.points - pts
        omega
      · rw [if_neg hk]
        exact h y hy

/-- A state for the C6 counterexample: one user with zero balances and an
empty machine. -/
def sNeg : DBState :=
  { users := [{ id := 1, user_id := "u_1", name := "n", mobile := "70000000",
                password_hash := "h", points := 0, bottles := 0,
                created_at := 0 }],
    machines := [{ id := 1, machine_id := "M1", name := "RVM",
                   city := "c", geo := { lat := 0, lng := 0 },
                   current_bottles := 0, max_capacity := 100,
                   total_bottles := 0, is_full := false,
                   last_emptied := none, created_at := 0 }],
    transactions := [], brands := [], nextUserId := 2, nextTrxId := 1 }

/-- Counterexample to C6 as stated: `machine_insert` accepts a deposit with
`points_per_bottle = -10` (1 bottle into an empty machine), and the user's
points balance becomes -10, breaking the non-negativity invariant. -/
theorem users_nonneg_cex :
    UsersNonneg sNeg ∧
    isOkResult (machine_insert sNeg "M1" "u_1" 1 (-10) 0).2 = true ∧
    ¬ UsersNonneg (machine_insert sNeg "M1" "u_1" 1 (-10) 0).1 :=
  ⟨by decide, by decide, by decide⟩

/-- Witness for C6 (amended) at concrete operations: the spec-scenario
deposit with non-negative inputs, a registration and a redemption all
preserve the invariant. -/
theorem users_nonneg_preserved_witness :
    UsersNonneg sEx ∧
    UsersNonneg (machine_insert sEx "M001" "busa_1593" 5 10 0).1 ∧
    UsersNonneg
      (register sEx (some "alice") (some "99991234") (some "pw") 7).1 ∧
    UsersNonneg (redeem_request sEx uEx (some 3) 100 0).1 :=
  ⟨by decide,
   users_nonneg_preserved.2.1 sEx "M001" "busa_1593" 5 10 0 (by decide)
     (by decide) (by decide),
   users_nonneg_preserved.1 sEx (some "alice") (some "99991234")
     (some "pw") 7 (by decide),
   users_nonneg_preserved.2.2 sEx uEx (some 3) 100 0 (by decide)
     (by decide)⟩

/-- C7 (amended): register fails with ValidationError when the name or
password is missing or empty or when the (stringified) mobile is empty — a
missing mobile key is coerced by `str(...)` to the truthy string "None" and
accepted; it fails with ConflictError exactly when the mobile or the
derived `user_id` is already in use; otherwise it inserts a new user with
zero points and zero bottles and returns the new user's identifier. -/
theorem register_spec (s : DBState) (name? mobile? password? : Option String)
    (now : Nat) :
    (¬(truthyOpt name? = true ∧ pyStr mobile? ≠ "" ∧
        truthyOpt password? = true) →
      register s name? mobile? password? now =
        (s, .error (.validation "Missing fields"))) ∧
    (∀ name password, name? = some name → password? = some password →
      name ≠ "" → password ≠ "" → pyStr mobile? ≠ "" →
      ((∃ u ∈ s.users, u.mobile = pyStr mobile? ∨
          u.user_id = generate_user_id name (pyStr mobile?)) →
        register s name? mobile? password? now =
          (s, .error (.conflict "mobile or user_id already used"))) ∧
      (¬(∃ u ∈ s.users, u.mobile = pyStr mobile? ∨
          u.user_id = generate_user_id name (pyStr mobile?)) →
        register s name? mobile? password? now =
          ({ s with
              users := s.users ++
                [{ id := s.nextUserId,
                   user_id := generate_user_id name (pyStr mobile?),
                   name := name, mobile := pyStr mobile?,
                   password_hash := bcryptHash password,
                   points := 0, bottles := 0, created_at := now }],
              nextUserId := s.nextUserId + 1 },
           .ok (generate_user_id name (pyStr mobile?))))) := by
  refine ⟨register_validation_spec s name? mobile? password? now, ?_⟩
  intro name password hn hp hne hpe hme
  subst hn
  subst hp
  exact ⟨fun hconf =>
      register_conflict_spec s name password mobile? now hne hpe hme hconf,
    fun hnc =>
      register_ok_spec s name password mobile? now hne hpe hme hnc⟩

/-- Witness for C7 at concrete inputs: a missing name is a ValidationError;
registering the seed user's mobile again is a ConflictError; a fresh
name and mobile register successfully. -/
theorem register_spec_witness :
    register sEx none (some "123") (some "pw") 0 =
      (sEx, .error (.validation "Missing fields")) ∧
    register sEx (some "TEST") (some "01020411593") (some "pw") 0 =
      (sEx, .error (.conflict "mobile or user_id already used")) ∧
    (register sEx (some "alice") (some "99991234") (some "pw") 7).2 =
      .ok "alic_1234" := by
  refine ⟨(register_spec sEx none (some "123") (some "pw") 0).1 (by decide),
    ((register_spec sEx (some "TEST") (some "01020411593") (some "pw") 0).2
      "TEST" "pw" rfl rfl (by decide) (by decide) (by decide)).1
      (by decide), ?_⟩
  have h := ((register_spec sEx (some "alice") (some "99991234")
    (some "pw") 7).2 "alice" "pw" rfl rfl (by decide) (by decide)
    (by decide)).2 (by decide)
  rw [h]
  decide

/-- A state containing the user "alic_5678" with mobile "11115678", for
the C7 counterexample. -/
def sAlice : DBState :=
  { users := [{ id := 5, user_id := "alic_5678", name := "alice",
                mobile := "11115678", password_hash := "h", points := 0,
                bottles := 0, created_at := 0 }],
    machines := [], transactions := [], brands := [],
    nextUserId := 6, nextTrxId := 1 }

/-- Counterexample to C7 as stated, in two parts.  First, a register call
with the mobile field missing succeeds (`str(None)` is the truthy "None"),
against "fails with a ValidationError when any field is missing".  Second,
registering ("alice", "99995678") against a state where no user has mobile
"99995678" still fails with ConflictError, because the derived user_id
"alic_5678" collides — against "ConflictError exactly when the mobile
number is already registered". -/
theorem register_spec_cex :
    isOkResult (register sEx (some "bob") none (some "pw") 0).2 = true ∧
    sAlice.users.all (fun u => !(u.mobile == "99995678")) = true ∧
    (register sAlice (some "alice") (some "99995678") (some "pw") 0).2 =
      .error (.conflict "mobile or user_id already used") :=
  ⟨by decide, by decide, by decide⟩

/-- Inversion of a successful registration: the inputs were present and
nonempty, no existing user held the mobile or the derived user id, the
returned identifier is `generate_user_id`, and the new state appends the
zero-balance user. -/
lemma register_ok_inv (s : DBState) (name? mobile? password? : Option String)
    (now : Nat) (s' : DBState) (uid : String)
    (h : register s name? mobile? password? now = (s', .ok uid)) :
    ∃ name password, name? = some name ∧ password? = some password ∧
      name ≠ "" ∧ password ≠ "" ∧ pyStr mobile? ≠ "" ∧
      (∀ u ∈ s.users, ¬(u.mobile = pyStr mobile? ∨
        u.user_id = generate_user_id name (pyStr mobile?))) ∧
      uid = generate_user_id name (pyStr mobile?) ∧
      s' = { s with
        users := s.users ++
          [{ id := s.nextUserId,
             user_id := generate_user_id name (pyStr mobile?),
             name := name, mobile := pyStr mobile?,
             password_hash := bcryptHash password,
             points := 0, bottles := 0, created_at := now }],
        nextUserId := s.nextUserId + 1 } := by
  unfold register at h
  dsimp only at h
  split at h
  · rename_i hcond
    split at h
    · simp at h
    · rename_i hnc
      obtain ⟨hn, hm, hp⟩ := hcond
      cases name? with
      | none => simp [truthyOpt] at hn
      | some name =>
        cases password? with
        | none => simp [truthyOpt] at hp
        | some password =>
          simp only [Option.getD_some] at h hnc
          rw [Prod.mk.injEq, Except.ok.injEq] at h
          obtain ⟨hs', huid⟩ := h
          push_neg at hnc
          refine ⟨name, password, rfl, rfl, by simpa [truthyOpt] using hn,
            by simpa [truthyOpt] using hp, hm, ?_, huid.symm, hs'.symm⟩
          intro u hu hor
          rcases hor with ha | hb
          · exact (hnc u hu).1 ha
          · exact (hnc u hu).2 hb
  · simp at h

/-- C8 (amended): when register succeeds with a mobile that passes login's
format check (digits, length 8 to 15) and a password with no surrounding
whitespace, an immediately following login with the same credentials
succeeds and returns a token whose identity is the new user id together
with the public user fields (and no password hash, which the response
record does not even contain).  Register does not validate the mobile
format, so registrations with other mobiles break the round trip: see the
counterexample. -/
theorem register_login_roundtrip (s : DBState) (name mobile password : String)
    (now : Nat) (s' : DBState) (uid : String)
    (hreg : register s (some name) (some mobile) (some password) now =
      (s', .ok uid))
    (hdig : isdigitStr mobile = true) (hlen8 : 8 ≤ mobile.length)
    (hlen15 : mobile.length ≤ 15)
    (hpstrip : pyStripStr password = password) :
    login s' (some mobile) (some password) = .ok
      { identity := uid, claim_mobile := mobile, claim_name := name,
        user_id := uid, name := name, mobile := mobile, points := 0,
        bottles := 0 } := by
  obtain ⟨name0, password0, hn0, hp0, hne, hpe, hme, hnoconf, huid, hs'⟩ :=
    register_ok_inv s (some name) (some mobile) (some password) now s' uid
      hreg
  cases Option.some.inj hn0
  cases Option.some.inj hp0
  subst huid
  subst hs'
  have hall : ∀ x ∈ s.users, (fun y => y.mobile == mobile) x = false := by
    intro x hx
    simp only [beq_eq_false_iff_ne, ne_eq]
    intro he
    exact hnoconf x hx (Or.inl he)
  have hfind :
      List.find? (fun y : UserRow => y.mobile == mobile)
        (s.users ++
          [({ id := s.nextUserId,
              user_id := generate_user_id name (pyStr (some mobile)),
              name := name, mobile := pyStr (some mobile),
              password_hash := bcryptHash password,
              points := 0, bottles := 0, created_at := now } : UserRow)]) =
        some { id := s.nextUserId,
               user_id := generate_user_id name (pyStr (some mobile)),
               name := name, mobile := pyStr (some mobile),
               password_hash := bcryptHash password,
               points := 0, bottles := 0, created_at := now } := by
    rw [find?_append_of_all_neg s.users _ _ hall]
    simp [pyStr]
  have hl := login_ok_spec
    { s with
        users := s.users ++
          [({ id := s.nextUserId,
              user_id := generate_user_id name (pyStr (some mobile)),
              name := name, mobile := pyStr (some mobile),
              password_hash := bcryptHash password,
              points := 0, bottles := 0, created_at := now } : UserRow)],
        nextUserId := s.nextUserId + 1 }
    mobile password
    { id := s.nextUserId,
      user_id := generate_user_id name (pyStr (some mobile)),
      name := name, mobile := pyStr (some mobile),
      password_hash := bcryptHash password,
      points := 0, bottles := 0, created_at := now }
    hpstrip hpe hdig hlen8 hlen15 hfind rfl
  exact hl

/-- Witness for C8: registering ("alice", "99991234", "pw") and logging in
with the same credentials succeeds with the public fields and zero
balances. -/
theorem register_login_roundtrip_witness :
    isdigitStr "99991234" = true ∧
    register sEx (some "alice") (some "99991234") (some "pw") 7 =
      ((register sEx (some "alice") (some "99991234") (some "pw") 7).1,
        .ok "alic_1234") ∧
    login (register sEx (some "alice") (some "99991234") (some "pw") 7).1
      (some "99991234") (some "pw") = .ok
      { identity := "alic_1234", claim_mobile := "99991234",
        claim_name := "alice", user_id := "alic_1234", name := "alice",
        mobile := "99991234", points := 0, bottles := 0 } :=
  ⟨by decide, by decide,
   register_login_roundtrip sEx "alice" "99991234" "pw" 7
     (register sEx (some "alice") (some "99991234") (some "pw") 7).1
     "alic_1234" (by decide) (by decide) (by decide) (by decide)
     (by decide)⟩

/-- The empty database, for the C8 counterexample. -/
def emptyDB : DBState :=
  { users := [], machines := [], transactions := [], brands := [],
    nextUserId := 1, nextTrxId := 1 }

/-- Counterexample to C8 as stated: register accepts the non-digit mobile
"abc" (it never validates the format), but the immediately following login
with the same credentials is rejected by login's mobile-format check, so
the round trip fails. -/
theorem register_login_roundtrip_cex :
    isOkResult (register emptyDB (some "bob") (some "abc") (some "pw") 0).2 =
      true ∧
    login (register emptyDB (some "bob") (some "abc") (some "pw") 0).1
      (some "abc") (some "pw") =
      .error (.validation "Invalid mobile number format") :=
  ⟨by decide, by decide⟩
